import Mathlib

/-!
# Verification of the Multi-Sensor Hourly Analytics Engine

Shallow embedding of the core analytics of the `urban` repository
(`frontend/src/lib/advancedAlgorithms.ts` and
`frontend/src/lib/realDataService.ts`) over exact rationals, together
with theorems settling the specification claims.

JavaScript numbers are modelled by `ℚ` (all arithmetic in the core is
+, -, *, /, min, max, rounding; no transcendental functions except the
square root inside the Euclidean distance, which is strictly monotone
and therefore only ever observed through order comparisons — those
comparisons are embedded on the squared distance with squared
thresholds).  `Math.round` is embedded as `jsRound` (round half toward
positive infinity, as in JavaScript).
-/

namespace Urban

/-- JavaScript `Math.round`: round half toward positive infinity. -/
def jsRound (q : ℚ) : ℤ := ⌊q + 1/2⌋

/-! ## Kalman filter (`advancedAlgorithms.ts`, `kalmanFilter`, lines 183–231) -/

/-- `KalmanState` from `advancedAlgorithms.ts` (lines 10–15). -/
structure KalmanState where
  x : ℚ
  P : ℚ
  Q : ℚ
  R : ℚ
deriving Repr, DecidableEq

/-- `KalmanResult` from `advancedAlgorithms.ts` (lines 17–21). -/
structure KalmanResult where
  smoothed : List ℚ
  predicted : ℚ
  state : KalmanState
deriving Repr, DecidableEq

/-- The optional `initialState?: Partial<KalmanState>` parameter of
`kalmanFilter`: each field may be absent (`undefined`). -/
structure KalmanInit where
  x : Option ℚ
  P : Option ℚ
  Q : Option ℚ
  R : Option ℚ
deriving Repr, DecidableEq

/-- The `undefined` initial state every caller in the repository passes. -/
def noInit : KalmanInit := ⟨none, none, none, none⟩

/-- One iteration of the measurement loop of `kalmanFilter`
(lines 210–221): predict with the constant model, update with gain `K`,
emit the new estimate. -/
def kalmanStep (s : KalmanState) (z : ℚ) : KalmanState :=
  let x_pred := s.x
  let P_pred := s.P + s.Q
  let K := P_pred / (P_pred + s.R)
  { x := x_pred + K * (z - x_pred), P := (1 - K) * P_pred, Q := s.Q, R := s.R }

/-- `kalmanFilter` (lines 183–231): empty input returns zeros; otherwise
the state starts from the first measurement (with `P=1.0, Q=0.01, R=0.1`
unless overridden), every measurement is folded through `kalmanStep`
pushing each new estimate into `smoothed`, and the one-step-ahead
prediction is the final state estimate `x`. -/
def kalmanFilter (measurements : List ℚ) (initialState : KalmanInit) : KalmanResult :=
  match measurements with
  | [] => ⟨[], 0, ⟨0, 1, 1/100, 1/10⟩⟩
  | m0 :: _ =>
    let s0 : KalmanState :=
      ⟨initialState.x.getD m0, initialState.P.getD 1,
       initialState.Q.getD (1/100), initialState.R.getD (1/10)⟩
    let r := measurements.foldl
      (fun (acc : List ℚ × KalmanState) z =>
        let s := kalmanStep acc.2 z
        (acc.1 ++ [s.x], s))
      ([], s0)
    ⟨r.1, r.2.x, r.2⟩

/-! ## Hourly smoothing and prediction
(`advancedAlgorithms.ts`, `smoothAndPredictPedestrians` lines 238–317 and
`smoothAndPredictScores` lines 324–403; the two functions are verbatim
copies of each other except for the field names and the final rounding) -/

/-- One point of the hourly series handed to the smoother
(`{ hour, pedestrians }` respectively `{ hour, score }` in the source). -/
structure HourVal where
  hour : ℕ
  value : ℚ
deriving Repr, DecidableEq

/-- One point of the smoother's output
(`{ hour, pedestrians, pedestriansRaw }` resp. `{ hour, score, scoreRaw }`). -/
structure SmoothedPoint where
  hour : ℕ
  value : ℚ
  raw : ℚ
deriving Repr, DecidableEq

/-- Stable insertion: place `x` after every already-sorted element `y`
with `le y x`.  All four comparator sorts of the source (`.sort` with a
numeric comparator, which is stable in modern JavaScript engines) are
instances of `sortLe` below. -/
def insertLe (le : α → α → Bool) (x : α) : List α → List α
  | [] => [x]
  | y :: rest => if le y x then y :: insertLe le x rest else x :: y :: rest

/-- Stable insertion sort with comparator `le`. -/
def sortLe (le : α → α → Bool) (l : List α) : List α :=
  l.foldl (fun acc x => insertLe le x acc) []

/-- `hourlyData.sort((a, b) => a.hour - b.hour)` (stable, ascending). -/
def sortByHour (l : List HourVal) : List HourVal :=
  sortLe (fun a b => a.hour ≤ b.hour) l

/-- The trend-blended next-hour prediction shared verbatim by
`smoothAndPredictPedestrians` (lines 288–308) and
`smoothAndPredictScores` (lines 374–394): when at least 3 measured hours
exist, blend 70% of the filter prediction with 30% of the trend-adjusted
average of the last two measured values, where the trend compares the
average of the last two measured values with the average of the previous
pair (`recentValues` is `hoursWithData.slice(-3)`). -/
def blendPrediction (hoursWithData : List HourVal) (predicted : ℚ) : ℚ :=
  if 3 ≤ hoursWithData.length then
    let recentValues := (hoursWithData.map (fun h => h.value)).drop (hoursWithData.length - 3)
    if 2 ≤ recentValues.length then
      let lastTwoAvg := (recentValues.getD (recentValues.length - 1) 0 +
                         recentValues.getD (recentValues.length - 2) 0) / 2
      let previousAvg := if 3 ≤ recentValues.length then
          (recentValues.getD (recentValues.length - 2) 0 +
           recentValues.getD (recentValues.length - 3) 0) / 2
        else lastTwoAvg
      let trend := lastTwoAvg - previousAvg
      predicted * (7/10) + (lastTwoAvg + trend) * (3/10)
    else predicted
  else predicted

/-- The smoothed 24-hour output series shared by both smoothers
(lines 268–286 resp. 354–372): hours with a positive value take the
filter output at their index in the measured subsequence (found by
`findIndex` over the hour number); hours without data keep their
original (zero) value. -/
def smoothedSeries (sortedData hoursWithData : List HourVal) (smoothed : List ℚ) :
    List SmoothedPoint :=
  sortedData.map (fun (d : HourVal) =>
    if 0 < d.value then
      let dataIndex := hoursWithData.findIdx (fun h => h.hour = d.hour)
      match smoothed.get? dataIndex with
      | some v => (⟨d.hour, v, d.value⟩ : SmoothedPoint)
      | none => (⟨d.hour, d.value, d.value⟩ : SmoothedPoint)
    else (⟨d.hour, d.value, d.value⟩ : SmoothedPoint))

/-- `smoothAndPredictPedestrians` (lines 238–317).  Output: the smoothed
series and the next-hour prediction, which for this count-like series is
rounded (`Math.round`) and clamped to `≥ 0`. -/
def smoothAndPredictPedestrians (hourlyData : List HourVal) : List SmoothedPoint × ℚ :=
  let sortedData := sortByHour hourlyData
  let hoursWithData := sortedData.filter (fun d => 0 < d.value)
  if hoursWithData.length < 2 then
    let lastValue := match hoursWithData.getLast? with
      | some d => d.value
      | none => 0
    (sortedData.map (fun d => ⟨d.hour, d.value, d.value⟩), lastValue)
  else
    let r := kalmanFilter (hoursWithData.map (fun d => d.value)) noInit
    let nextHourPrediction := blendPrediction hoursWithData r.predicted
    (smoothedSeries sortedData hoursWithData r.smoothed,
     max 0 ((jsRound nextHourPrediction : ℤ) : ℚ))

/-- `smoothAndPredictScores` (lines 324–403).  Identical to
`smoothAndPredictPedestrians` except the next-hour prediction is only
clamped to `≥ 0`, not rounded. -/
def smoothAndPredictScores (hourlyData : List HourVal) : List SmoothedPoint × ℚ :=
  let sortedData := sortByHour hourlyData
  let hoursWithData := sortedData.filter (fun d => 0 < d.value)
  if hoursWithData.length < 2 then
    let lastValue := match hoursWithData.getLast? with
      | some d => d.value
      | none => 0
    (sortedData.map (fun d => ⟨d.hour, d.value, d.value⟩), lastValue)
  else
    let r := kalmanFilter (hoursWithData.map (fun d => d.value)) noInit
    let nextHourPrediction := blendPrediction hoursWithData r.predicted
    (smoothedSeries sortedData hoursWithData r.smoothed, max 0 nextHourPrediction)

/-! ## K-means clustering (`advancedAlgorithms.ts`, `kMeansClustering`,
lines 27–168, and `euclideanDistance`, lines 170–177)

The source draws `k` distinct random indices into the valid data with
`Math.random`; that random choice is made an explicit parameter
(`initIdx`), constrained in the theorems exactly as the sampling loop
guarantees (distinct indices below the valid-data length).  The source's
`euclideanDistance` returns a square root; the square root is strictly
monotone on nonnegative inputs and the distance is only ever used in
order comparisons (`<` against the running minimum, `>` against the
movement threshold `0.01`), so the embedding compares squared distances
and squares the threshold (`0.01² = 1/10000`); the source's length guard
(its `throw`) is kept in `euclideanDistance` below and claim C9 shows it
never fires on the vectors `kMeansClustering` builds. -/

/-- One element of the `hourlyData` array handed to `kMeansClustering`:
`{ hour, activity, light?, pedestrians, score, sampleCount? }`. -/
structure HourDatum where
  hour : ℕ
  activity : ℚ
  light : Option ℚ
  pedestrians : ℚ
  score : ℚ
  sampleCount : ℕ
deriving Repr, DecidableEq

/-- The valid-data filter (line 36):
`d.pedestrians > 0 || d.score > 0 || (d.activity && d.activity > -70)`.
JavaScript truthiness makes `d.activity && …` false when the activity is
exactly `0`. -/
def isValidDatum (d : HourDatum) : Bool :=
  decide (0 < d.pedestrians) || decide (0 < d.score) ||
    (decide (d.activity ≠ 0) && decide (-70 < d.activity))

/-- The 4-dimensional feature vector
`[activity || -70, light || 0, pedestrians || 0, score || 0]`
(lines 54–59 and 74–79): `activity || -70` maps a falsy (zero) activity
to `-70`; for the other three components the JavaScript `|| 0` fallback
maps `0`/`undefined` to `0` and is the identity otherwise. -/
def features (d : HourDatum) : List ℚ :=
  [if d.activity = 0 then -70 else d.activity,
   d.light.getD 0,
   d.pedestrians,
   d.score]

/-- Squared Euclidean distance (the square of the value computed on the
matching-length branch of `euclideanDistance`, lines 174–176). -/
def euclideanDistSq (a b : List ℚ) : ℚ :=
  ((a.zip b).map (fun p => (p.1 - p.2) ^ 2)).sum

/-- `euclideanDistance` (lines 170–177) with its length guard: vectors
of different lengths throw (`Except.error`); otherwise the distance is
returned (represented by its square, see the section comment). -/
def euclideanDistance (a b : List ℚ) : Except String ℚ :=
  if a.length ≠ b.length then Except.error "Vectors must have same length"
  else Except.ok (euclideanDistSq a b)

/-- The scan over centroids of lines 81–90, carrying the centroid index
`cIdx`, the running minimum distance (`Infinity` modelled by `none`) and
the current nearest index. -/
def nearestFrom (f : List ℚ) : ℕ → Option ℚ × ℕ → List (List ℚ) → Option ℚ × ℕ
  | _, best, [] => best
  | i, best, c :: rest =>
    let dist := euclideanDistSq f c
    let best2 := match best.1 with
      | none => (some dist, i)
      | some m => if dist < m then (some dist, i) else best
    nearestFrom f (i + 1) best2 rest

/-- Index of the nearest centroid (lines 81–90): minimum distance
started at `Infinity`, nearest index started at `0`, strict `<` so the
first of equally-near centroids wins. -/
def nearestIdx (f : List ℚ) (cents : List (List ℚ)) : ℕ :=
  (nearestFrom f 0 (none, 0) cents).2

/-- The assignment step (lines 70–93): bucket `c` receives, in input
order, the hours of the valid points whose nearest centroid is `c`. -/
def assignClusters (k : ℕ) (cents : List (List ℚ)) (pts : List HourDatum) :
    List (List ℕ) :=
  (List.range k).map (fun c =>
    (pts.filter (fun p => nearestIdx (features p) cents = c)).map (fun p => p.hour))

/-- The mean of coordinate `i` over a list of feature vectors
(lines 113–118). -/
def meanCoord (ps : List (List ℚ)) (i : ℕ) : ℚ :=
  (ps.map (fun p => p.getD i 0)).sum / (ps.length : ℚ)

/-- The centroid update for one cluster (lines 96–126): an empty cluster
keeps its centroid and reports no movement; otherwise the member points
are recovered from their hours by `find` over the valid data, the new
centroid is the componentwise mean, and movement is flagged when the
(squared) distance moved exceeds `0.01²`. -/
def updateCentroid (pts : List HourDatum) (hours : List ℕ) (c : List ℚ) :
    List ℚ × Bool :=
  let clusterPoints := hours.filterMap
    (fun h => (pts.find? (fun d => d.hour = h)).map features)
  if clusterPoints.length = 0 then (c, false)
  else
    let newCentroid := [meanCoord clusterPoints 0, meanCoord clusterPoints 1,
                        meanCoord clusterPoints 2, meanCoord clusterPoints 3]
    (newCentroid, decide ((1/10000 : ℚ) < euclideanDistSq c newCentroid))

/-- The full centroid-update pass over all clusters; the Boolean is the
loop's `changed` flag (set when any nonempty cluster's centroid moved
more than `0.01`). -/
def kmUpdate (pts : List HourDatum) (hours : List (List ℕ))
    (cents : List (List ℚ)) : List (List ℚ) × Bool :=
  let r := (hours.zip cents).map (fun p => updateCentroid pts p.1 p.2)
  (r.map (fun q => q.1), r.any (fun q => q.2))

/-- One iteration of the `while (changed && iterations < maxIterations)`
loop body (lines 68–129): assign every point to its nearest centroid,
then update the centroids. -/
def kmStep (k : ℕ) (pts : List HourDatum) (cents : List (List ℚ)) :
    List (List ℕ) × List (List ℚ) × Bool :=
  let cls := assignClusters k cents pts
  let u := kmUpdate pts cls cents
  (cls, u.1, u.2)

/-- The convergence loop with its fuel (`maxIterations = 100`); the
state is `(clusters, centroids, changed)` exactly as in the source, with
`clusters = []` and `changed = true` before the first iteration. -/
def kmIter (k : ℕ) (pts : List HourDatum) :
    ℕ → List (List ℕ) × List (List ℚ) × Bool → List (List ℕ) × List (List ℚ)
  | 0, st => (st.1, st.2.1)
  | n + 1, st =>
    if st.2.2 then kmIter k pts n (kmStep k pts st.2.1) else (st.1, st.2.1)

/-- The initial centroids (lines 42–60): the feature vectors of the
valid points at the `k` distinct randomly drawn indices (the `none` arm
is unreachable while every index is below the valid-data length, as the
sampling loop guarantees). -/
def initCentroids (validData : List HourDatum) (initIdx : List ℕ) :
    List (List ℚ) :=
  initIdx.map (fun i =>
    match validData.get? i with
    | some d => features d
    | none => [])

/-- The centroid list after `n` assign/update passes, starting from the
initial centroids — the sequence of centroid lists the convergence loop
walks through (used to show the `euclideanDistance` length guard is
unreachable, claim C9). -/
def kmCentsAfter (k : ℕ) (pts : List HourDatum) (cents0 : List (List ℚ)) :
    ℕ → List (List ℚ)
  | 0 => cents0
  | n + 1 => (kmStep k pts (kmCentsAfter k pts cents0 n)).2.1

/-- `ClusterResult` from `advancedAlgorithms.ts` (lines 3–8). -/
structure ClusterResult where
  clusterId : ℕ
  label : String
  hours : List ℕ
  centroid : List ℚ
deriving Repr, DecidableEq

/-- `hours.sort((a, b) => a - b)` (line 143; stable, ascending). -/
def sortNat (l : List ℕ) : List ℕ :=
  sortLe (fun a b => a ≤ b) l

/-- `clusterResults.sort((a, b) => a.centroid[3] - b.centroid[3])`
(lines 149–153; stable, ascending on the score coordinate). -/
def sortByCentroidScore (l : List ClusterResult) : List ClusterResult :=
  sortLe (fun a b => a.centroid.getD 3 0 ≤ b.centroid.getD 3 0) l

/-- The rank-based labels of lines 157–165: position 0 gets `quiet`,
position 1 `moderate`, every later position `busy`. -/
def labelAt (i : ℕ) : String :=
  if i = 0 then "quiet" else if i = 1 then "moderate" else "busy"

/-- `kMeansClustering` (lines 27–168) with the random centroid choice
made explicit as `initIdx` (the `k` distinct indices into the valid data
that the `Math.random` sampling loop of lines 46–60 produces): empty
input or fewer valid points than `k` yields no clusters; otherwise run
the assign/update loop from the chosen initial centroids for at most 100
iterations, wrap the final buckets (hours sorted ascending) with the
final centroids, sort the clusters by their score coordinate ascending
and label them `quiet`/`moderate`/`busy` by rank.  (The per-cluster
`avgScore` of lines 132–138 is computed but never used by the source —
the sort reads `centroid[3]` — so it is omitted here.) -/
def kMeansClustering (hourlyData : List HourDatum) (k : ℕ) (initIdx : List ℕ) :
    List ClusterResult :=
  if hourlyData.length = 0 then []
  else
    let validData := hourlyData.filter isValidDatum
    if validData.length < k then []
    else
      let centroids := initCentroids validData initIdx
      let r := kmIter k validData 100 ([], centroids, true)
      let clusterResults := r.1.enum.map (fun p =>
        ({ clusterId := p.1, label := "", hours := sortNat p.2,
           centroid := r.2.getD p.1 [] } : ClusterResult))
      (sortByCentroidScore clusterResults).enum.map
        (fun p => { p.2 with label := labelAt p.1 })

/-! ## Sensor fusion (`realDataService.ts`) -/

/-- `estimatePedestriansFromSensors` (lines 345–379): clamp the audio
level to `[-70, -20]` dB, normalize to `[0, 1]`, scale to the 0–100
ceiling; when a light level is present and positive, modulate by
`0.7 + 0.3·min(1, lux/500)` (the guard is
`lightLevel !== undefined && lightLevel > 0`); halve when fewer than 10
samples; cap at 100 and round. -/
def estimatePedestriansFromSensors (audioLevel : ℚ) (lightLevel : Option ℚ)
    (sampleCount : ℕ) : ℚ :=
  let clampedAudio := max (-70) (min (-20) audioLevel)
  let audioNormalized := max 0 (min 1 ((clampedAudio + 70) / 50))
  let base := audioNormalized * 100
  let lit := match lightLevel with
    | some l => if 0 < l then base * (7/10 + 3/10 * min 1 (l / 500)) else base
    | none => base
  let conf := if sampleCount < 10 then lit * (1/2) else lit
  ((jsRound (min conf 100) : ℤ) : ℚ)

/-- `calculateScore` (lines 382–398): weighted combination of the
normalized audio, footfall and light components, scaled to 0–25.  The
light component is `min(1, lux/500)` when `lightLevel` is truthy
(present and nonzero) and `0.5` otherwise — in JavaScript
`lightLevel ? … : 0.5` treats a reading of `0` lux like an absent
sensor.  (The `hour` parameter is unused by the source as well.) -/
def calculateScore (_hour : ℕ) (audioLevel : ℚ) (footfall : ℚ)
    (lightLevel : Option ℚ) : ℚ :=
  let clampedAudio := max (-70) (min (-20) audioLevel)
  let audioComponent := max 0 (min 1 ((clampedAudio + 70) / 50))
  let footfallComponent := min 1 (footfall / 100)
  let lightComponent := match lightLevel with
    | some l => if l ≠ 0 then min 1 (l / 500) else 1/2
    | none => 1/2
  let score := audioComponent * (4/10) + footfallComponent * (4/10) +
    lightComponent * (2/10)
  score * 25

/-! ## Per-hour footfall selection
(`generateRealTrafficData`, `realDataService.ts` lines 579–593) -/

/-- Which branch of the footfall selection produced an hour's value:
the sensor estimate, the areal (DLR footfall CSV) fallback, or the
no-data zero. -/
inductive FootfallSource where
  | sensor
  | areal
  | nodata
deriving Repr, DecidableEq

/-- The per-hour footfall selection of lines 579–593: hours with
`sampleCount > 0` take the sensor estimate; otherwise the areal fallback
value is used only when the fallback map has the hour **and** the
session-sample list is globally empty (`sessionData.length === 0`);
otherwise the footfall is `0`.  The second component records which
branch fired. -/
def footfallChoice (sessionLen : ℕ) (fallbackAt : Option ℚ) (audioLevel : ℚ)
    (lightLevel : Option ℚ) (sampleCount : ℕ) : ℚ × FootfallSource :=
  if 0 < sampleCount then
    (estimatePedestriansFromSensors audioLevel lightLevel sampleCount,
     FootfallSource.sensor)
  else
    match fallbackAt with
    | some v =>
      if sessionLen = 0 then (v, FootfallSource.areal) else (0, FootfallSource.nodata)
    | none => (0, FootfallSource.nodata)

/-- The inputs one analysis run feeds the footfall selection, per hour:
the global session-sample count, the areal fallback map, and each hour's
mean audio level, mean light level and sample count (the sample count
sums session samples and manual-collection samples, so it can be
positive for an hour even when `sessionLen = 0`). -/
structure RunInput where
  sessionLen : ℕ
  fallbackAt : ℕ → Option ℚ
  audioAt : ℕ → ℚ
  lightAt : ℕ → Option ℚ
  countAt : ℕ → ℕ

/-- The footfall value and source the run assigns to hour `h`. -/
def runFootfall (r : RunInput) (h : ℕ) : ℚ × FootfallSource :=
  footfallChoice r.sessionLen (r.fallbackAt h) (r.audioAt h) (r.lightAt h)
    (r.countAt h)

/-- A run with no session samples in which manual collection covers hour
0 (one sample) while the areal dataset covers hour 1. -/
def mixedRun : RunInput where
  sessionLen := 0
  fallbackAt := fun h => if h = 1 then some 50 else none
  audioAt := fun _ => -45
  lightAt := fun _ => none
  countAt := fun h => if h = 0 then 1 else 0

/-! ## Busy-period segmentation
(`generateRealTrafficData`, `realDataService.ts` lines 673–778) -/

/-- One element of the `hourlyData` array (`RealTrafficDataPoint`)
as the segmenter reads it. -/
structure TrafficPoint where
  hour : ℕ
  score : ℚ
  pedestrians : ℚ
  activity : ℚ
  sampleCount : ℕ
deriving Repr, DecidableEq

/-- The open period the scan maintains
(`{ start, end, score, pedestrians, activity }`, line 676). -/
structure OpenPeriod where
  startH : ℕ
  endH : ℕ
  score : ℚ
  pedestrians : ℚ
  activity : ℚ
deriving Repr, DecidableEq

/-- A closed busy period with its averages (lines 717–724; the
presentation-only `reason` string built by `getBusyReason` is not
referenced by any claim and is omitted). -/
structure BusyPeriod where
  startH : ℕ
  endH : ℕ
  avgPedestrians : ℚ
  avgScore : ℚ
  avgActivity : ℚ
deriving Repr, DecidableEq

/-- `Math.max(...hourlyData.map(d => d.score))` (line 679); the empty
case (JavaScript `-Infinity`) never arises for the 24-bucket series, so
any default serves. -/
def maxScoreOf (l : List TrafficPoint) : ℚ := ((l.map (fun d => d.score)).max?).getD 0

/-- `Math.max(...hourlyData.map(d => d.pedestrians))` (line 680). -/
def maxPedestriansOf (l : List TrafficPoint) : ℚ :=
  ((l.map (fun d => d.pedestrians)).max?).getD 0

/-- The adaptive thresholds (lines 681–683) used by the qualification
test. -/
def scoreThresholdOf (l : List TrafficPoint) : ℚ := max 6 (maxScoreOf l * (4/10))

def pedestrianThresholdOf (l : List TrafficPoint) : ℚ :=
  max 30 (maxPedestriansOf l * (3/10))

/-- The per-hour qualification test (lines 690–692): score at or above
the score threshold, at least one sample, and footfall or audio activity
at or above its threshold (`activityThreshold = -50`). -/
def isBusy (sT pT : ℚ) (d : TrafficPoint) : Bool :=
  decide (sT ≤ d.score) && decide (0 < d.sampleCount) &&
    (decide (pT ≤ d.pedestrians) || decide ((-50 : ℚ) ≤ d.activity))

/-- Closing a period (lines 712–724): average score, pedestrians
(rounded) and activity over the hours the period spans. -/
def closePeriod (hourlyData : List TrafficPoint) (p : OpenPeriod) : BusyPeriod :=
  let periodData := hourlyData.filter
    (fun d => decide (p.startH ≤ d.hour) && decide (d.hour ≤ p.endH))
  let n : ℚ := (periodData.length : ℚ)
  { startH := p.startH, endH := p.endH,
    avgPedestrians := ((jsRound ((periodData.map (fun d => d.pedestrians)).sum / n) : ℤ) : ℚ),
    avgScore := (periodData.map (fun d => d.score)).sum / n,
    avgActivity := (periodData.map (fun d => d.activity)).sum / n }

/-- One step of the scan over `hourlyData` (lines 685–754).  A busy hour
opens a period or extends the open one when within 1 hour of its end
(tracking componentwise maxima); a busy hour further away closes the
open period unconditionally and opens a new one; a non-busy hour closes
the open period only when it spans at least 2 hours
(`end - start >= 1`, written `start + 1 ≤ end` since the scan keeps
`start ≤ end`). -/
def bpStep (hourlyData : List TrafficPoint) (sT pT : ℚ)
    (st : List BusyPeriod × Option OpenPeriod) (d : TrafficPoint) :
    List BusyPeriod × Option OpenPeriod :=
  if isBusy sT pT d then
    match st.2 with
    | none => (st.1, some ⟨d.hour, d.hour, d.score, d.pedestrians, d.activity⟩)
    | some cp =>
      if d.hour ≤ cp.endH + 1 then
        (st.1, some ⟨cp.startH, d.hour, max cp.score d.score,
                     max cp.pedestrians d.pedestrians, max cp.activity d.activity⟩)
      else
        (st.1 ++ [closePeriod hourlyData cp],
         some ⟨d.hour, d.hour, d.score, d.pedestrians, d.activity⟩)
  else
    match st.2 with
    | some cp =>
      if cp.startH + 1 ≤ cp.endH then (st.1 ++ [closePeriod hourlyData cp], none)
      else (st.1, none)
    | none => (st.1, none)

/-- The full segmentation (lines 673–770): scan all hours, then flush a
remaining open period subject to the same 2-hour minimum. -/
def busyPeriodsOf (hourlyData : List TrafficPoint) : List BusyPeriod :=
  let sT := scoreThresholdOf hourlyData
  let pT := pedestrianThresholdOf hourlyData
  let r := hourlyData.foldl (bpStep hourlyData sT pT) ([], none)
  match r.2 with
  | some cp =>
    if cp.startH + 1 ≤ cp.endH then r.1 ++ [closePeriod hourlyData cp] else r.1
  | none => r.1

/-- `busyPeriods.sort((a, b) => b.avgScore - a.avgScore)` (line 773;
stable, descending on the average score). -/
def sortBPDesc (l : List BusyPeriod) : List BusyPeriod :=
  sortLe (fun a b => b.avgScore ≤ a.avgScore) l

/-- Lines 772–778: the ranked busy periods, truncated to the top 3. -/
def topBusyPeriods (hourlyData : List TrafficPoint) : List BusyPeriod :=
  (sortBPDesc (busyPeriodsOf hourlyData)).take 3

/-! ## Specification-side formulas and example inputs used by the
theorems below -/

/-- The §4.3 score-fusion contract formula as the specification states
it, for comparison with `calculateScore`: the audio component clamps
`(audio + 70)/50` to `[0, 1]` directly, the footfall ceiling is 100 and
the light ceiling 500 lux, light unavailable (absent or zero) gives
`0.5`, and the weighted sum is scaled to 0–25. -/
def scoreSpec (audio footfall : ℚ) (light : Option ℚ) : ℚ :=
  let audioComponent := max 0 (min 1 ((audio + 70) / 50))
  let footfallComponent := min 1 (footfall / 100)
  let lightComponent := match light with
    | some l => if l ≠ 0 then min 1 (l / 500) else 1/2
    | none => 1/2
  25 * ((4/10) * audioComponent + (4/10) * footfallComponent +
        (2/10) * lightComponent)

/-- The §4.4 forecast formula as the specification states it, for
comparison with the smoothers: with `x` the filter's final estimate and
`measured` the measured subsequence,
`trend = avg(last2) − avg(prev2)` over the last/previous pairs of
measured values and
`prediction = 0.7·x + 0.3·(avg(last2) + trend)`. -/
def predictionSpec (measured : List ℚ) (x : ℚ) : ℚ :=
  let lastTwoAvg := (measured.getD (measured.length - 1) 0 +
                     measured.getD (measured.length - 2) 0) / 2
  let previousAvg := (measured.getD (measured.length - 2) 0 +
                      measured.getD (measured.length - 3) 0) / 2
  let trend := lastTwoAvg - previousAvg
  (7/10) * x + (3/10) * (lastTwoAvg + trend)

/-- The gap example of the specification: hours 1 and 2 carry no data. -/
def gapExample : List HourVal := [⟨0, 40⟩, ⟨1, 0⟩, ⟨2, 0⟩, ⟨3, 60⟩]

/-- A four-point day: three valid hours (hours 0–2) and one invalid
hour (hour 3: no footfall, no score, activity at the −70 floor). -/
def kmExample : List HourDatum :=
  [⟨0, -40, none, 10, 5, 1⟩, ⟨1, -45, some 100, 20, 8, 2⟩,
   ⟨2, -60, none, 2, 1, 1⟩, ⟨3, -70, none, 0, 0, 0⟩]

/-- A synthetic 24-hour day: hours 2–4 busy (score 9), hour 7 busy but
isolated, all other hours quiet (score 2). -/
def bpExample : List TrafficPoint :=
  (List.range 24).map (fun h =>
    ⟨h, if h = 7 ∨ (2 ≤ h ∧ h ≤ 4) then 9 else 2, 50, -40, 1⟩)

/-! ## Generic facts about the stable insertion sort -/

theorem mem_insertLe {α : Type} (le : α → α → Bool) (x a : α) (l : List α) :
    a ∈ insertLe le x l ↔ a = x ∨ a ∈ l := by
  induction l with
  | nil => simp [insertLe]
  | cons y rest ih =>
    simp only [insertLe]
    split
    · simp only [List.mem_cons, ih]
      tauto
    · simp [List.mem_cons]

theorem insertLe_perm {α : Type} (le : α → α → Bool) (x : α) (l : List α) :
    (insertLe le x l).Perm (x :: l) := by
  induction l with
  | nil => simp [insertLe]
  | cons y rest ih =>
    simp only [insertLe]
    split
    · exact (ih.cons y).trans (List.Perm.swap x y rest)
    · exact List.Perm.refl _

theorem sortLe_perm_aux {α : Type} (le : α → α → Bool) (l : List α) :
    ∀ acc : List α,
      (l.foldl (fun acc x => insertLe le x acc) acc).Perm (acc ++ l) := by
  induction l with
  | nil => simp
  | cons x rest ih =>
    intro acc
    simp only [List.foldl_cons]
    refine (ih (insertLe le x acc)).trans ?_
    refine (((insertLe_perm le x acc).append_right rest)).trans ?_
    simpa using (@List.perm_middle _ x acc rest).symm

theorem sortLe_perm {α : Type} (le : α → α → Bool) (l : List α) :
    (sortLe le l).Perm l := by
  simpa using sortLe_perm_aux le l []

theorem mem_sortLe {α : Type} (le : α → α → Bool) (l : List α) (a : α) :
    a ∈ sortLe le l ↔ a ∈ l :=
  (sortLe_perm le l).mem_iff

theorem length_sortLe {α : Type} (le : α → α → Bool) (l : List α) :
    (sortLe le l).length = l.length :=
  (sortLe_perm le l).length_eq

theorem pairwise_insertLe {α : Type} (le : α → α → Bool)
    (total : ∀ a b, le a b = true ∨ le b a = true)
    (htrans : ∀ a b c, le a b = true → le b c = true → le a c = true)
    (x : α) (l : List α) (hl : l.Pairwise (fun a b => le a b = true)) :
    (insertLe le x l).Pairwise (fun a b => le a b = true) := by
  induction l with
  | nil => simp [insertLe]
  | cons y rest ih =>
    rcases List.pairwise_cons.1 hl with ⟨hy, hrest⟩
    simp only [insertLe]
    split
    case isTrue h =>
      refine List.pairwise_cons.2 ⟨?_, ih hrest⟩
      intro z hz
      rcases (mem_insertLe le x z rest).1 hz with rfl | hz2
      · exact h
      · exact hy z hz2
    case isFalse h =>
      refine List.pairwise_cons.2 ⟨?_, hl⟩
      intro z hz
      rcases List.mem_cons.1 hz with rfl | hz2
      · rcases total x z with hxz | hzx
        · exact hxz
        · exact absurd hzx h
      · rcases total x y with hxy | hyx
        · exact htrans x y z hxy (hy z hz2)
        · exact absurd hyx h

theorem pairwise_sortLe_aux {α : Type} (le : α → α → Bool)
    (total : ∀ a b, le a b = true ∨ le b a = true)
    (htrans : ∀ a b c, le a b = true → le b c = true → le a c = true)
    (l : List α) :
    ∀ acc : List α, acc.Pairwise (fun a b => le a b = true) →
      (l.foldl (fun acc x => insertLe le x acc) acc).Pairwise
        (fun a b => le a b = true) := by
  induction l with
  | nil => intro acc hacc; simpa using hacc
  | cons x rest ih =>
    intro acc hacc
    simp only [List.foldl_cons]
    exact ih _ (pairwise_insertLe le total htrans x acc hacc)

theorem pairwise_sortLe {α : Type} (le : α → α → Bool)
    (total : ∀ a b, le a b = true ∨ le b a = true)
    (htrans : ∀ a b c, le a b = true → le b c = true → le a c = true)
    (l : List α) :
    (sortLe le l).Pairwise (fun a b => le a b = true) :=
  pairwise_sortLe_aux le total htrans l [] (by simp)

/-! ## Claim C10 — a 0-lux reading behaves like an absent light sensor -/

/-- **C10.** For an hour whose measured light level is exactly 0 lux,
score fusion treats light as unavailable (`calculateScore` uses the
`0.5` light component, not `min(1, 0/500) = 0`) and
`estimatePedestriansFromSensors` applies no light modulation: both
functions return exactly what they return when no light sensor is
present, so 0 lux is indistinguishable from an absent sensor at this
interface. -/
theorem c10_zero_lux (hour : ℕ) (audio footfall : ℚ) (n : ℕ) :
    calculateScore hour audio footfall (some 0) =
      calculateScore hour audio footfall none ∧
    estimatePedestriansFromSensors audio (some 0) n =
      estimatePedestriansFromSensors audio none n := by
  constructor
  · simp [calculateScore]
  · simp [estimatePedestriansFromSensors]

/-! ## Claim C4 — the fused score formula, its range, and one exact value -/

/-- Clamping the clamp: pre-clamping the audio level to `[-70, -20]`
does not change the `[0, 1]`-clamped normalised audio component. -/
theorem audio_clamp_eq (a : ℚ) :
    max 0 (min 1 ((max (-70) (min (-20) a) + 70) / 50)) =
    max 0 (min 1 ((a + 70) / 50)) := by
  rcases le_total a (-70) with h | h
  · rw [min_eq_right (by linarith : a ≤ (-20 : ℚ)), max_eq_left h]
    have h1 : (a + 70) / 50 ≤ 0 := by linarith
    rw [min_eq_right (by linarith : (a + 70) / 50 ≤ 1),
      max_eq_left h1]
    norm_num
  · rcases le_total a (-20) with h2 | h2
    · rw [min_eq_right h2, max_eq_right h]
    · rw [min_eq_left h2]
      have h3 : (1 : ℚ) ≤ (a + 70) / 50 := by linarith
      rw [min_eq_left h3]
      norm_num

/-- The spec formula stays within `[0, 25]` for nonnegative footfall and
light inputs. -/
theorem scoreSpec_bounds (audio footfall : ℚ) (light : Option ℚ)
    (hf : 0 ≤ footfall) (hl : ∀ l ∈ light, 0 ≤ l) :
    0 ≤ scoreSpec audio footfall light ∧ scoreSpec audio footfall light ≤ 25 := by
  have hA0 : (0 : ℚ) ≤ max 0 (min 1 ((audio + 70) / 50)) := le_max_left _ _
  have hA1 : max 0 (min 1 ((audio + 70) / 50)) ≤ 1 :=
    max_le (by norm_num) (min_le_left _ _)
  have hF0 : (0 : ℚ) ≤ min 1 (footfall / 100) :=
    le_min (by norm_num) (div_nonneg hf (by norm_num))
  have hF1 : min 1 (footfall / 100) ≤ 1 := min_le_left _ _
  cases light with
  | none =>
    simp only [scoreSpec]
    constructor <;> linarith
  | some l =>
    have hl0 : (0 : ℚ) ≤ l := hl l rfl
    by_cases hz : l = 0
    · subst hz
      simp only [scoreSpec, ne_eq, not_true_eq_false, if_false]
      constructor <;> linarith
    · have hL0 : (0 : ℚ) ≤ min 1 (l / 500) :=
        le_min (by norm_num) (div_nonneg hl0 (by norm_num))
      have hL1 : min 1 (l / 500) ≤ 1 := min_le_left _ _
      simp only [scoreSpec, ne_eq, hz, not_false_iff, if_true]
      constructor <;> linarith

/-- **C4.** The fused walk-by score equals the specification formula
`25·(0.4·audioComponent + 0.4·footfallComponent + 0.2·lightComponent)`
with clamped components; for nonnegative footfall and light it lies in
`[0, 25]`; and audio −45 dB, footfall 60, light 500 lux give exactly
16. -/
theorem c4_score_fusion (hour : ℕ) (audio footfall : ℚ) (light : Option ℚ)
    (hf : 0 ≤ footfall) (hl : ∀ l ∈ light, 0 ≤ l) :
    calculateScore hour audio footfall light = scoreSpec audio footfall light ∧
    0 ≤ calculateScore hour audio footfall light ∧
    calculateScore hour audio footfall light ≤ 25 ∧
    calculateScore 12 (-45) 60 (some 500) = 16 := by
  have heq : calculateScore hour audio footfall light = scoreSpec audio footfall light := by
    simp only [calculateScore, scoreSpec]
    rw [audio_clamp_eq]
    ring
  have hb := scoreSpec_bounds audio footfall light hf hl
  exact ⟨heq, heq ▸ hb.1, heq ▸ hb.2, by norm_num [calculateScore]⟩

/-- Witness for C4 at audio −45 dB, footfall 60, light 500 lux. -/
theorem c4_score_fusion_witness :
    (0 ≤ (60 : ℚ)) ∧ calculateScore 12 (-45) 60 (some 500) = 16 := by
  have h := c4_score_fusion 12 (-45) 60 (some 500) (by norm_num)
    (by intro l hmem; rw [Option.mem_def] at hmem; cases hmem; norm_num)
  exact ⟨by norm_num, h.2.2.2⟩

/-! ## Claim C8 — fewer than k valid hours yield no clusters -/

/-- **C8.** With fewer than 3 valid hours the clusterer returns the
empty list — a signalled insufficient-data outcome, not an error and
not a degenerate result. -/
theorem c8_insufficient_data (hourlyData : List HourDatum) (initIdx : List ℕ)
    (h : (hourlyData.filter isValidDatum).length < 3) :
    kMeansClustering hourlyData 3 initIdx = [] := by
  unfold kMeansClustering
  split
  · rfl
  · simp only [if_pos h]

/-- Witness for C8: exactly 2 valid hours (the third point is invalid:
zero pedestrians, zero score, activity at the −70 floor). -/
theorem c8_insufficient_data_witness :
    kMeansClustering
      [⟨0, -40, none, 10, 5, 1⟩, ⟨1, -45, none, 20, 8, 2⟩, ⟨2, -70, none, 0, 0, 0⟩]
      3 [0, 1, 2] = [] :=
  c8_insufficient_data _ _ (by decide)

/-! ## Claim C6 — the filter fixes constant series -/

/-- A Kalman update with a measurement equal to the current estimate
leaves the estimate unchanged. -/
theorem kalmanStep_const (s : KalmanState) (c : ℚ) (h : s.x = c) :
    (kalmanStep s c).x = c := by
  simp [kalmanStep, h]

/-- Folding the filter over a constant series keeps the estimate at the
constant and appends a constant smoothed block. -/
theorem kalman_fold_const (c : ℚ) :
    ∀ (m : ℕ) (acc : List ℚ) (s : KalmanState), s.x = c →
      ((List.replicate m c).foldl
        (fun (acc : List ℚ × KalmanState) z =>
          let s := kalmanStep acc.2 z
          (acc.1 ++ [s.x], s)) (acc, s)).1 = acc ++ List.replicate m c ∧
      ((List.replicate m c).foldl
        (fun (acc : List ℚ × KalmanState) z =>
          let s := kalmanStep acc.2 z
          (acc.1 ++ [s.x], s)) (acc, s)).2.x = c := by
  intro m
  induction m with
  | zero => intro acc s hs; simp [hs]
  | succ m ih =>
    intro acc s hs
    rw [List.replicate_succ, List.foldl_cons]
    have hx : (kalmanStep s c).x = c := kalmanStep_const s c hs
    have := ih (acc ++ [(kalmanStep s c).x]) (kalmanStep s c) hx
    rcases this with ⟨h1, h2⟩
    refine ⟨?_, h2⟩
    rw [h1, hx]
    simp

/-- **C6.** The Kalman smoother is a fixed point on constant non-zero
series of length at least 2: every smoothed value equals the constant
and the one-step-ahead prediction equals the constant. -/
theorem c6_constant_series (n : ℕ) (c : ℚ) (hn : 2 ≤ n) (hc : c ≠ 0) :
    (kalmanFilter (List.replicate n c) noInit).smoothed = List.replicate n c ∧
    (kalmanFilter (List.replicate n c) noInit).predicted = c := by
  obtain ⟨m, rfl⟩ : ∃ m, n = m + 1 := ⟨n - 1, by omega⟩
  rw [List.replicate_succ]
  simp only [kalmanFilter, noInit, Option.getD_none]
  rw [← List.replicate_succ]
  have := kalman_fold_const c (m + 1) [] ⟨c, 1, 1/100, 1/10⟩ rfl
  rcases this with ⟨h1, h2⟩
  constructor
  · rw [h1]; simp
  · exact h2

/-- Witness for C6 at the series `[50, 50, 50, 50]`. -/
theorem c6_constant_series_witness :
    (2 ≤ 4 ∧ (50 : ℚ) ≠ 0) ∧
    ((kalmanFilter (List.replicate 4 (50 : ℚ)) noInit).smoothed =
        List.replicate 4 (50 : ℚ) ∧
     (kalmanFilter (List.replicate 4 (50 : ℚ)) noInit).predicted = 50) :=
  ⟨⟨by norm_num, by norm_num⟩, c6_constant_series 4 50 (by norm_num) (by norm_num)⟩

/-! ## Claim C1 — footfall sources within one run -/

/-- **C1 counterexample.** In the run `mixedRun` — no session samples,
but a manual-collection sample giving hour 0 a positive `sampleCount`,
and an areal dataset value for hour 1 — hour 0 takes a sensor-derived
estimate while hour 1 takes the areal fallback: sensor-derived and
areal-fallback footfall values coexist within one run's buckets,
refuting the claim that the 24 buckets always draw from one source
only. -/
theorem c1_counterexample :
    (runFootfall mixedRun 0).2 = FootfallSource.sensor ∧
    (runFootfall mixedRun 1).2 = FootfallSource.areal := by
  constructor <;> rfl

/-- **C1 (amended).** Per hour: a positive sample count always selects
the sensor estimate; with session data present (`sessionLen > 0`) a
zero-sample hour gets footfall 0 (never the areal value), so
sensor-derived and areal-fallback values never coexist in a run that
has session data; with no session data at all a zero-sample hour takes
the areal dataset value when available (else 0) — but hours whose
sample count is positive from manual collection still take sensor
estimates, so the two sources can coexist in that case. -/
theorem c1_footfall_single_source (r : RunInput) (h h2 : ℕ) :
    (0 < r.countAt h →
      runFootfall r h =
        (estimatePedestriansFromSensors (r.audioAt h) (r.lightAt h) (r.countAt h),
         FootfallSource.sensor)) ∧
    (r.countAt h = 0 → 0 < r.sessionLen →
      runFootfall r h = (0, FootfallSource.nodata)) ∧
    (r.countAt h = 0 → r.sessionLen = 0 →
      runFootfall r h = (match r.fallbackAt h with
        | some v => (v, FootfallSource.areal)
        | none => (0, FootfallSource.nodata))) ∧
    (0 < r.sessionLen →
      ¬((runFootfall r h).2 = FootfallSource.sensor ∧
        (runFootfall r h2).2 = FootfallSource.areal)) := by
  have hareal : ∀ x : ℕ, (runFootfall r x).2 = FootfallSource.areal →
      r.sessionLen = 0 := by
    intro x hx
    unfold runFootfall footfallChoice at hx
    split at hx
    · simp at hx
    · split at hx
      · split at hx
        · assumption
        · simp at hx
      · simp at hx
  refine ⟨?_, ?_, ?_, ?_⟩
  · intro hc
    unfold runFootfall footfallChoice
    rw [if_pos hc]
  · intro hc hs
    unfold runFootfall footfallChoice
    rw [if_neg (by omega)]
    split
    · rw [if_neg (by omega)]
    · rfl
  · intro hc hs
    unfold runFootfall footfallChoice
    rw [if_neg (by omega)]
    split
    · rw [if_pos hs]
    · rfl
  · intro hs hcontra
    have := hareal h2 hcontra.2
    omega

/-- Witness for the amended C1 at `mixedRun`, hour 0: its sample count
is positive, so it takes the sensor estimate. -/
theorem c1_footfall_single_source_witness :
    0 < mixedRun.countAt 0 ∧
    runFootfall mixedRun 0 =
      (estimatePedestriansFromSensors (mixedRun.audioAt 0) (mixedRun.lightAt 0)
        (mixedRun.countAt 0), FootfallSource.sensor) :=
  ⟨by decide, (c1_footfall_single_source mixedRun 0 0).1 (by decide)⟩

/-! ## Claim C5 — the smoother never fabricates values for gaps -/

/-- Both branches of the pedestrian smoother map over the hour-sorted
input with a function that fixes zero-valued (no-data) points. -/
theorem smooth_map_zero (hd : List HourVal) :
    ∃ g : HourVal → SmoothedPoint,
      (smoothAndPredictPedestrians hd).1 = (sortByHour hd).map g ∧
      ∀ d : HourVal, d.value = 0 → (g d).value = 0 := by
  by_cases hc : ((sortByHour hd).filter (fun d => 0 < d.value)).length < 2
  · refine ⟨fun d => ⟨d.hour, d.value, d.value⟩, ?_, ?_⟩
    · simp only [smoothAndPredictPedestrians, if_pos hc]
    · intro d h0
      exact h0
  · refine ⟨fun d =>
      if 0 < d.value then
        match (kalmanFilter
            (((sortByHour hd).filter (fun d => 0 < d.value)).map (fun d => d.value))
            noInit).smoothed.get?
            (((sortByHour hd).filter (fun d => 0 < d.value)).findIdx
              (fun h => h.hour = d.hour)) with
        | some v => (⟨d.hour, v, d.value⟩ : SmoothedPoint)
        | none => (⟨d.hour, d.value, d.value⟩ : SmoothedPoint)
      else (⟨d.hour, d.value, d.value⟩ : SmoothedPoint), ?_, ?_⟩
    · simp only [smoothAndPredictPedestrians, if_neg hc, smoothedSeries]
    · intro d h0
      dsimp only
      rw [if_neg (by rw [h0]; exact lt_irrefl 0)]
      exact h0

/-- **C5.** The smoother operates only on the subsequence of hours with
positive value, and every zero-valued hour keeps exactly the value 0 in
the output; on `[40, 0, 0, 60]` the measured subsequence is `[40, 60]`,
the output is the filter of `[40, 60]` spread over the measured hours
with the two gap hours left at 0. -/
theorem c5_gap_safety :
    (∀ (hd : List HourVal) (i : ℕ), i < (sortByHour hd).length →
      ((sortByHour hd).getD i ⟨0, 0⟩).value = 0 →
      ((smoothAndPredictPedestrians hd).1.getD i ⟨0, 0, 0⟩).value = 0) ∧
    ((sortByHour gapExample).filter (fun d => 0 < d.value)).map (fun d => d.value)
        = [40, 60] ∧
    (smoothAndPredictPedestrians gapExample).1.getD 1 ⟨9, 9, 9⟩ = ⟨1, 0, 0⟩ ∧
    (smoothAndPredictPedestrians gapExample).1.getD 2 ⟨9, 9, 9⟩ = ⟨2, 0, 0⟩ := by
  refine ⟨?_, by decide, by decide, by decide⟩
  intro hd i hi h0
  obtain ⟨g, hg, hz⟩ := smooth_map_zero hd
  rw [List.getD_eq_getElem _ _ hi] at h0
  rw [hg, List.getD_eq_getElem _ _ (by simpa using hi), List.getElem_map]
  exact hz _ h0

/-- Witness for C5 at the gap example, hour index 1 (value 0). -/
theorem c5_gap_safety_witness :
    ((smoothAndPredictPedestrians gapExample).1.getD 1 ⟨0, 0, 0⟩).value = 0 :=
  c5_gap_safety.1 gapExample 1 (by decide) (by decide)

/-! ## Claim C3 — the blended next-hour prediction -/

/-- `getD` after `drop` reads the original list at the shifted index. -/
theorem getD_drop_eq (l : List ℚ) (j i : ℕ) (h : j + i < l.length) :
    (l.drop j).getD i 0 = l.getD (j + i) 0 := by
  rw [List.getD_eq_getElem _ _ (by rw [List.length_drop]; omega),
      List.getD_eq_getElem _ _ h]
  exact List.getElem_drop l

/-- With at least 3 measured hours the source's `slice(-3)` blend equals
the specification formula. -/
theorem blendPrediction_eq (hwd : List HourVal) (h : 3 ≤ hwd.length) (x : ℚ) :
    blendPrediction hwd x = predictionSpec (hwd.map (fun d => d.value)) x := by
  have hm : (hwd.map (fun (d : HourVal) => d.value)).length = hwd.length :=
    List.length_map _ _
  have hdlen :
      ((hwd.map (fun (d : HourVal) => d.value)).drop (hwd.length - 3)).length = 3 := by
    rw [List.length_drop, hm]; omega
  simp only [blendPrediction, predictionSpec, if_pos h]
  rw [hdlen]
  rw [if_pos (by norm_num : (2 : ℕ) ≤ 3), if_pos (by norm_num : (3 : ℕ) ≤ 3)]
  rw [getD_drop_eq _ _ _ (by rw [hm]; omega), getD_drop_eq _ _ _ (by rw [hm]; omega),
      getD_drop_eq _ _ _ (by rw [hm]; omega)]
  have e1 : hwd.length - 3 + (3 - 1) =
      (hwd.map (fun (d : HourVal) => d.value)).length - 1 := by rw [hm]; omega
  have e2 : hwd.length - 3 + (3 - 2) =
      (hwd.map (fun (d : HourVal) => d.value)).length - 2 := by rw [hm]; omega
  have e3 : hwd.length - 3 + (3 - 3) =
      (hwd.map (fun (d : HourVal) => d.value)).length - 3 := by rw [hm]; omega
  rw [e1, e2, e3]
  ring

/-- **C3.** With at least 3 measured hours, both smoothers predict
`0.7·x + 0.3·(avg(last2) + trend)` over the measured subsequence, with
`x` the filter's final estimate; the result is clamped to `≥ 0`, and
for the count-like pedestrian series additionally rounded, while the
score series is not rounded. -/
theorem c3_next_hour_prediction (hd : List HourVal)
    (h3 : 3 ≤ ((sortByHour hd).filter (fun d => 0 < d.value)).length) :
    (smoothAndPredictPedestrians hd).2 =
      max 0 ((jsRound (predictionSpec
        (((sortByHour hd).filter (fun d => 0 < d.value)).map (fun d => d.value))
        (kalmanFilter
          (((sortByHour hd).filter (fun d => 0 < d.value)).map (fun d => d.value))
          noInit).predicted) : ℤ) : ℚ) ∧
    (smoothAndPredictScores hd).2 =
      max 0 (predictionSpec
        (((sortByHour hd).filter (fun d => 0 < d.value)).map (fun d => d.value))
        (kalmanFilter
          (((sortByHour hd).filter (fun d => 0 < d.value)).map (fun d => d.value))
          noInit).predicted) := by
  have hno : ¬ ((sortByHour hd).filter (fun d => 0 < d.value)).length < 2 := by
    omega
  constructor
  · simp only [smoothAndPredictPedestrians, if_neg hno]
    rw [blendPrediction_eq _ h3]
  · simp only [smoothAndPredictScores, if_neg hno]
    rw [blendPrediction_eq _ h3]

/-- Witness for C3 at the series `[10, 20, 30, 40]` over hours 0–3. -/
theorem c3_next_hour_prediction_witness :
    (smoothAndPredictPedestrians [⟨0, 10⟩, ⟨1, 20⟩, ⟨2, 30⟩, ⟨3, 40⟩]).2 =
      max 0 ((jsRound (predictionSpec
        (((sortByHour [⟨0, 10⟩, ⟨1, 20⟩, ⟨2, 30⟩, ⟨3, 40⟩]).filter
            (fun d => 0 < d.value)).map (fun d => d.value))
        (kalmanFilter
          (((sortByHour [⟨0, 10⟩, ⟨1, 20⟩, ⟨2, 30⟩, ⟨3, 40⟩]).filter
              (fun d => 0 < d.value)).map (fun d => d.value))
          noInit).predicted) : ℤ) : ℚ) :=
  (c3_next_hour_prediction [⟨0, 10⟩, ⟨1, 20⟩, ⟨2, 30⟩, ⟨3, 40⟩] (by decide)).1

/-! ## Claim C2 — busy-period segmentation -/

/-- One scan step preserves the segmenter invariant: when the incoming
point carries the next consecutive hour, every closed period spans at
least two hours and an open period ends exactly at the hour just
consumed. -/
theorem bpStep_inv (hourlyData : List TrafficPoint) (sT pT : ℚ)
    (acc : List BusyPeriod) (cp : Option OpenPeriod) (d : TrafficPoint) (n : ℕ)
    (hdh : d.hour = n)
    (hacc : ∀ p ∈ acc, p.startH + 1 ≤ p.endH)
    (hcp : ∀ c, cp = some c → c.startH ≤ c.endH ∧ c.endH + 1 = n) :
    (∀ p ∈ (bpStep hourlyData sT pT (acc, cp) d).1, p.startH + 1 ≤ p.endH) ∧
    (∀ c, (bpStep hourlyData sT pT (acc, cp) d).2 = some c →
      c.startH ≤ c.endH ∧ c.endH + 1 = n + 1) := by
  unfold bpStep
  by_cases hb : isBusy sT pT d = true
  · rw [if_pos hb]
    cases cp with
    | none =>
      dsimp only
      refine ⟨hacc, ?_⟩
      intro c hc
      simp only [Option.some.injEq] at hc
      subst hc
      simp [hdh]
    | some c =>
      obtain ⟨hse, hend⟩ := hcp c rfl
      dsimp only
      rw [if_pos (by omega : d.hour ≤ c.endH + 1)]
      refine ⟨hacc, ?_⟩
      intro c2 hc2
      simp only [Option.some.injEq] at hc2
      subst hc2
      simp only
      omega
  · rw [if_neg hb]
    cases cp with
    | none =>
      dsimp only
      exact ⟨hacc, by simp⟩
    | some c =>
      obtain ⟨hse, hend⟩ := hcp c rfl
      dsimp only
      by_cases hspan : c.startH + 1 ≤ c.endH
      · rw [if_pos hspan]
        refine ⟨?_, by simp⟩
        intro p hp
        rcases List.mem_append.1 hp with hp1 | hp2
        · exact hacc p hp1
        · rcases List.mem_singleton.1 hp2 with rfl
          simpa [closePeriod] using hspan
      · rw [if_neg hspan]
        exact ⟨hacc, by simp⟩

/-- The scan invariant propagated along a run of consecutive hours. -/
theorem bp_fold_inv (hourlyData : List TrafficPoint) (sT pT : ℚ) :
    ∀ (l : List TrafficPoint) (n : ℕ),
      l.map (fun d => d.hour) = List.range' n l.length →
      ∀ (acc : List BusyPeriod) (cp : Option OpenPeriod),
        (∀ p ∈ acc, p.startH + 1 ≤ p.endH) →
        (∀ c, cp = some c → c.startH ≤ c.endH ∧ c.endH + 1 = n) →
        (∀ p ∈ (l.foldl (bpStep hourlyData sT pT) (acc, cp)).1,
          p.startH + 1 ≤ p.endH) ∧
        (∀ c, (l.foldl (bpStep hourlyData sT pT) (acc, cp)).2 = some c →
          c.startH ≤ c.endH ∧ c.endH + 1 = n + l.length) := by
  intro l
  induction l with
  | nil =>
    intro n hmap acc cp hacc hcp
    refine ⟨hacc, ?_⟩
    intro c hc
    simpa using hcp c hc
  | cons d rest ih =>
    intro n hmap acc cp hacc hcp
    rw [List.length_cons, List.range'_succ, List.map_cons] at hmap
    have hdh : d.hour = n := (List.cons.injEq _ _ _ _ ▸ hmap).1
    have hrest : rest.map (fun d => d.hour) = List.range' (n + 1) rest.length :=
      (List.cons.injEq _ _ _ _ ▸ hmap).2
    rw [List.foldl_cons]
    have hstep := bpStep_inv hourlyData sT pT acc cp d n hdh hacc hcp
    have := ih (n + 1)
      hrest
      (bpStep hourlyData sT pT (acc, cp) d).1
      (bpStep hourlyData sT pT (acc, cp) d).2
      hstep.1 hstep.2
    refine ⟨?_, ?_⟩
    · intro p hp
      exact this.1 p (by simpa using hp)
    · intro c hc
      have h2 := this.2 c (by simpa using hc)
      refine ⟨h2.1, ?_⟩
      rw [List.length_cons]
      omega

/-- Every period the segmenter emits on the 24-bucket series spans at
least two hours. -/
theorem busyPeriodsOf_spans (hd : List TrafficPoint)
    (hh : hd.map (fun d => d.hour) = List.range 24) :
    ∀ p ∈ busyPeriodsOf hd, p.startH + 1 ≤ p.endH := by
  have hlen : hd.length = 24 := by
    have := congrArg List.length hh
    simpa using this
  have hmap : hd.map (fun d => d.hour) = List.range' 0 hd.length := by
    rw [hh, hlen, List.range_eq_range']
  have hinv := bp_fold_inv hd (scoreThresholdOf hd) (pedestrianThresholdOf hd)
    hd 0 hmap [] none (by simp) (by simp)
  intro p hp
  unfold busyPeriodsOf at hp
  simp only at hp
  split at hp
  case h_1 c heq =>
    split at hp
    case isTrue hspan =>
      rcases List.mem_append.1 hp with hp1 | hp2
      · exact hinv.1 p hp1
      · rcases List.mem_singleton.1 hp2 with rfl
        simpa [closePeriod] using hspan
    case isFalse hspan => exact hinv.1 p hp
  case h_2 heq => exact hinv.1 p hp

/-- **C2.** On a 24-hour series (hours 0–23 in order) the segmenter
returns at most 3 periods, sorted by average score descending, and
every emitted period spans at least 2 hours
(`endHour − startHour ≥ 1`). -/
theorem c2_busy_periods (hd : List TrafficPoint)
    (hh : hd.map (fun d => d.hour) = List.range 24) :
    (topBusyPeriods hd).length ≤ 3 ∧
    (topBusyPeriods hd).Pairwise (fun a b => b.avgScore ≤ a.avgScore) ∧
    ∀ p ∈ topBusyPeriods hd, p.startH + 1 ≤ p.endH := by
  refine ⟨?_, ?_, ?_⟩
  · unfold topBusyPeriods
    rw [List.length_take]
    exact min_le_left _ _
  · have hp := pairwise_sortLe (fun (a b : BusyPeriod) => decide (b.avgScore ≤ a.avgScore))
      (by
        intro a b
        rcases le_total b.avgScore a.avgScore with h | h
        · left; simpa using h
        · right; simpa using h)
      (by
        intro a b c h1 h2
        simp only [decide_eq_true_eq] at h1 h2 ⊢
        exact le_trans h2 h1)
      (busyPeriodsOf hd)
    have hp2 : (sortBPDesc (busyPeriodsOf hd)).Pairwise
        (fun a b => b.avgScore ≤ a.avgScore) := by
      refine hp.imp ?_
      intro a b hab
      simpa using hab
    exact List.Pairwise.sublist (List.take_sublist 3 _) hp2
  · intro p hp
    apply busyPeriodsOf_spans hd hh
    have hp2 : p ∈ sortBPDesc (busyPeriodsOf hd) :=
      (List.take_sublist 3 _).subset hp
    exact (mem_sortLe _ _ _).1 hp2

/-! ## K-means lemmas shared by claims C7 and C9 -/

/-- The nearest-centroid index among three centroids is below 3. -/
theorem nearestIdx_lt_three (f : List ℚ) (c0 c1 c2 : List ℚ) :
    nearestIdx f [c0, c1, c2] < 3 := by
  simp only [nearestIdx, nearestFrom]
  split
  case h_1 => norm_num
  case h_2 =>
    split
    · norm_num
    · split <;> norm_num

/-- Every bucket of the assignment step collects exactly the hours of
the points whose nearest centroid is that bucket's index; with three
centroids the buckets cover all points. -/
theorem assign_cover (c0 c1 c2 : List ℚ) (pts : List HourDatum) (h : ℕ) :
    (∃ b ∈ assignClusters 3 [c0, c1, c2] pts, h ∈ b) ↔
      ∃ p ∈ pts, p.hour = h := by
  constructor
  · rintro ⟨b, hb, hhb⟩
    simp only [assignClusters, List.mem_map, List.mem_range] at hb
    obtain ⟨c, _, rfl⟩ := hb
    simp only [List.mem_map, List.mem_filter] at hhb
    obtain ⟨p, ⟨hp, _⟩, rfl⟩ := hhb
    exact ⟨p, hp, rfl⟩
  · rintro ⟨p, hp, rfl⟩
    refine ⟨(pts.filter
      (fun q => nearestIdx (features q) [c0, c1, c2] =
        nearestIdx (features p) [c0, c1, c2])).map (fun q => q.hour), ?_, ?_⟩
    · simp only [assignClusters, List.mem_map, List.mem_range]
      exact ⟨nearestIdx (features p) [c0, c1, c2],
        nearestIdx_lt_three _ _ _ _, rfl⟩
    · simp only [List.mem_map, List.mem_filter]
      exact ⟨p, ⟨hp, by simp⟩, rfl⟩

/-- When the input hours are distinct, distinct buckets of the
assignment step share no hour. -/
theorem assign_disjoint (cents : List (List ℚ)) (pts : List HourDatum)
    (hnd : (pts.map (fun p => p.hour)).Nodup) :
    (assignClusters 3 cents pts).Pairwise
      (fun b1 b2 => ∀ h, h ∈ b1 → h ∉ b2) := by
  unfold assignClusters
  rw [List.pairwise_map]
  refine List.Pairwise.imp ?_ (List.pairwise_lt_range 3)
  intro c1 c2 hlt h hh1 hh2
  simp only [List.mem_map, List.mem_filter] at hh1 hh2
  obtain ⟨p1, ⟨hp1, hn1⟩, hh1⟩ := hh1
  obtain ⟨p2, ⟨hp2, hn2⟩, hh2⟩ := hh2
  have hpe : p1 = p2 :=
    List.inj_on_of_nodup_map hnd hp1 hp2 (by rw [hh1, hh2])
  subst hpe
  simp only [decide_eq_true_eq] at hn1 hn2
  omega

/-- The assignment step always yields three buckets. -/
theorem assignClusters_length (cents : List (List ℚ)) (pts : List HourDatum) :
    (assignClusters 3 cents pts).length = 3 := by
  simp [assignClusters]

/-- The update step yields as many centroids as buckets/centroids. -/
theorem kmUpdate_length (pts : List HourDatum) (hours : List (List ℕ))
    (cents : List (List ℚ)) :
    (kmUpdate pts hours cents).1.length = min hours.length cents.length := by
  simp [kmUpdate]

/-- From any already-stepped state, the convergence loop ends in a state
whose clusters are the assignment for some length-3 centroid list and
whose centroids number three. -/
theorem kmIter_shape (pts : List HourDatum) :
    ∀ (n : ℕ) (c cents2 : List (List ℚ)) (ch : Bool),
      c.length = 3 → cents2.length = 3 →
      ∃ d d2 : List (List ℚ), d.length = 3 ∧ d2.length = 3 ∧
        kmIter 3 pts n (assignClusters 3 c pts, cents2, ch) =
          (assignClusters 3 d pts, d2) := by
  intro n
  induction n with
  | zero =>
    intro c cents2 ch hc h2
    exact ⟨c, cents2, hc, h2, rfl⟩
  | succ n ih =>
    intro c cents2 ch hc h2
    by_cases hch : ch = true
    · subst hch
      rw [kmIter, if_pos rfl]
      have hu : (kmStep 3 pts cents2).2.1.length = 3 := by
        simp [kmStep, kmUpdate_length, assignClusters_length, h2]
      have hrw : kmStep 3 pts cents2 =
          (assignClusters 3 cents2 pts, (kmStep 3 pts cents2).2.1,
           (kmStep 3 pts cents2).2.2) := rfl
      rw [hrw]
      exact ih cents2 _ _ h2 hu
    · have hf : ch = false := by
        cases ch
        · rfl
        · exact absurd rfl hch
      subst hf
      rw [kmIter, if_neg (by simp)]
      exact ⟨c, cents2, hc, h2, rfl⟩

/-- The centroid update keeps 4-component centroids 4-component. -/
theorem updateCentroid_length (pts : List HourDatum) (hours : List ℕ)
    (c : List ℚ) (hc : c.length = 4) :
    (updateCentroid pts hours c).1.length = 4 := by
  simp only [updateCentroid]
  split
  · exact hc
  · rfl

/-- The update pass keeps every centroid 4-component. -/
theorem kmUpdate4 (pts : List HourDatum) (hours : List (List ℕ))
    (cents : List (List ℚ)) (hc : ∀ c ∈ cents, c.length = 4) :
    ∀ c ∈ (kmUpdate pts hours cents).1, c.length = 4 := by
  intro c hcm
  simp only [kmUpdate, List.map_map, List.mem_map, Function.comp] at hcm
  obtain ⟨p, hp, rfl⟩ := hcm
  exact updateCentroid_length pts p.1 p.2 (hc p.2 (List.of_mem_zip hp).2)

/-- Along the whole convergence loop every centroid keeps exactly 4
components. -/
theorem kmIter_cents4 (pts : List HourDatum) :
    ∀ (n : ℕ) (st : List (List ℕ) × List (List ℚ) × Bool),
      (∀ c ∈ st.2.1, c.length = 4) →
      ∀ c ∈ (kmIter 3 pts n st).2, c.length = 4 := by
  intro n
  induction n with
  | zero => intro st hst; exact hst
  | succ n ih =>
    intro st hst
    rw [kmIter]
    split
    · refine ih _ ?_
      intro c hcm
      exact kmUpdate4 pts _ _ hst c hcm
    · exact hst

/-- Unfolding `kMeansClustering` when at least three valid hours exist:
the result is the relabelled ascending-by-score sort of the clusters of
a final assignment for some length-3 centroid list, with three final
centroids, each of 4 components when every initial index is in
range. -/
theorem kMeans_core (hd : List HourDatum) (initIdx : List ℕ)
    (hk : initIdx.length = 3)
    (h3 : 3 ≤ (hd.filter isValidDatum).length)
    (hlt : ∀ i ∈ initIdx, i < (hd.filter isValidDatum).length) :
    ∃ d d2 : List (List ℚ), d.length = 3 ∧ d2.length = 3 ∧
      (∀ c ∈ d2, c.length = 4) ∧
      kMeansClustering hd 3 initIdx =
        (sortByCentroidScore
          ((assignClusters 3 d (hd.filter isValidDatum)).enum.map (fun p =>
            ({ clusterId := p.1, label := "", hours := sortNat p.2,
               centroid := d2.getD p.1 [] } : ClusterResult)))).enum.map
          (fun p => { p.2 with label := labelAt p.1 }) := by
  have hne : ¬ hd.length = 0 := by
    have hle := List.length_filter_le isValidDatum hd
    omega
  have hnlt : ¬ (hd.filter isValidDatum).length < 3 := by omega
  have hc0len : (initCentroids (hd.filter isValidDatum) initIdx).length = 3 := by
    simp [initCentroids, hk]
  have hc04 : ∀ c ∈ initCentroids (hd.filter isValidDatum) initIdx,
      c.length = 4 := by
    intro c hcmem
    simp only [initCentroids, List.mem_map] at hcmem
    obtain ⟨i, hi, rfl⟩ := hcmem
    rw [List.get?_eq_get (hlt i hi)]
    rfl
  have hrw : kmStep 3 (hd.filter isValidDatum)
        (initCentroids (hd.filter isValidDatum) initIdx) =
      (assignClusters 3 (initCentroids (hd.filter isValidDatum) initIdx)
        (hd.filter isValidDatum),
       (kmStep 3 (hd.filter isValidDatum)
          (initCentroids (hd.filter isValidDatum) initIdx)).2.1,
       (kmStep 3 (hd.filter isValidDatum)
          (initCentroids (hd.filter isValidDatum) initIdx)).2.2) := rfl
  have hu1len : (kmStep 3 (hd.filter isValidDatum)
      (initCentroids (hd.filter isValidDatum) initIdx)).2.1.length = 3 := by
    simp [kmStep, kmUpdate_length, assignClusters_length, hc0len]
  obtain ⟨d, d2, hd3, hd23, hiter⟩ := kmIter_shape (hd.filter isValidDatum) 99
    (initCentroids (hd.filter isValidDatum) initIdx)
    (kmStep 3 (hd.filter isValidDatum)
      (initCentroids (hd.filter isValidDatum) initIdx)).2.1
    (kmStep 3 (hd.filter isValidDatum)
      (initCentroids (hd.filter isValidDatum) initIdx)).2.2
    hc0len hu1len
  have h100 : kmIter 3 (hd.filter isValidDatum) 100
      ([], initCentroids (hd.filter isValidDatum) initIdx, true) =
      (assignClusters 3 d (hd.filter isValidDatum), d2) := by
    rw [show (100 : ℕ) = 99 + 1 from rfl, kmIter, if_pos rfl, hrw]
    exact hiter
  refine ⟨d, d2, hd3, hd23, ?_, ?_⟩
  · intro c hcm
    refine kmIter_cents4 (hd.filter isValidDatum) 100
      ([], initCentroids (hd.filter isValidDatum) initIdx, true) hc04 c ?_
    rw [h100]
    exact hcm
  · simp only [kMeansClustering, if_neg hne, if_neg hnlt, h100]

/-- Membership in the member-hour sort of line 143. -/
theorem mem_sortNat (b : List ℕ) (h : ℕ) : h ∈ sortNat b ↔ h ∈ b :=
  mem_sortLe _ _ _

/-- The hour sets of the wrapped cluster records are the sorted
buckets. -/
theorem crs_map_hours (l : List (List ℕ)) (d2 : List (List ℚ)) :
    ((l.enum.map (fun p =>
      ({ clusterId := p.1, label := "", hours := sortNat p.2,
         centroid := d2.getD p.1 [] } : ClusterResult))).map
      (fun cr => cr.hours)) = l.map sortNat := by
  rw [List.map_map]
  have hfun : ((fun cr : ClusterResult => cr.hours) ∘ (fun p : ℕ × List ℕ =>
      ({ clusterId := p.1, label := "", hours := sortNat p.2,
         centroid := d2.getD p.1 [] } : ClusterResult))) =
      (sortNat ∘ Prod.snd) := rfl
  rw [hfun, ← List.map_map, List.enum_map_snd]

/-- **C7.** With at least 3 valid hours, `k = 3`, distinct input hours
and in-range distinct initial indices, the clusterer returns exactly 3
clusters labelled `quiet`, `moderate`, `busy` in ascending order of the
centroid score coordinate, and the member-hour sets are pairwise
disjoint with union exactly the valid hours. -/
theorem c7_clusterer (hd : List HourDatum) (initIdx : List ℕ)
    (hk : initIdx.length = 3) (hndi : initIdx.Nodup)
    (h3 : 3 ≤ (hd.filter isValidDatum).length)
    (hlt : ∀ i ∈ initIdx, i < (hd.filter isValidDatum).length)
    (hhours : (hd.map (fun d => d.hour)).Nodup) :
    ∃ q m b : ClusterResult,
      kMeansClustering hd 3 initIdx = [q, m, b] ∧
      q.label = "quiet" ∧ m.label = "moderate" ∧ b.label = "busy" ∧
      q.centroid.getD 3 0 ≤ m.centroid.getD 3 0 ∧
      m.centroid.getD 3 0 ≤ b.centroid.getD 3 0 ∧
      (∀ h, (h ∈ q.hours ∨ h ∈ m.hours ∨ h ∈ b.hours) ↔
        h ∈ (hd.filter isValidDatum).map (fun d => d.hour)) ∧
      (∀ h, ¬(h ∈ q.hours ∧ h ∈ m.hours) ∧ ¬(h ∈ q.hours ∧ h ∈ b.hours) ∧
        ¬(h ∈ m.hours ∧ h ∈ b.hours)) := by
  obtain ⟨d, d2, hd3, hd23, _, heq⟩ := kMeans_core hd initIdx hk h3 hlt
  obtain ⟨c0, c1, c2, rfl⟩ := List.length_eq_three.1 hd3
  have hnd : ((hd.filter isValidDatum).map (fun p => p.hour)).Nodup :=
    List.Nodup.sublist (List.Sublist.map _ (List.filter_sublist hd)) hhours
  have hcov := assign_cover c0 c1 c2 (hd.filter isValidDatum)
  have hdisj := assign_disjoint [c0, c1, c2] (hd.filter isValidDatum) hnd
  -- the wrapped cluster records before sorting
  have hcrslen :
      ((assignClusters 3 [c0, c1, c2] (hd.filter isValidDatum)).enum.map (fun p =>
        ({ clusterId := p.1, label := "", hours := sortNat p.2,
           centroid := d2.getD p.1 [] } : ClusterResult))).length = 3 := by
    simp [assignClusters_length]
  have hslen :
      (sortByCentroidScore
        ((assignClusters 3 [c0, c1, c2] (hd.filter isValidDatum)).enum.map (fun p =>
          ({ clusterId := p.1, label := "", hours := sortNat p.2,
             centroid := d2.getD p.1 [] } : ClusterResult)))).length = 3 := by
    rw [sortByCentroidScore, length_sortLe, hcrslen]
  obtain ⟨s0, s1, s2, hs⟩ := List.length_eq_three.1 hslen
  have hperm :
      List.Perm [s0, s1, s2]
        ((assignClusters 3 [c0, c1, c2] (hd.filter isValidDatum)).enum.map (fun p =>
          ({ clusterId := p.1, label := "", hours := sortNat p.2,
             centroid := d2.getD p.1 [] } : ClusterResult))) := by
    rw [← hs]
    exact sortLe_perm _ _
  -- membership in some cluster record's hour set = membership in some bucket
  have hmemb : ∀ h : ℕ,
      ((∃ cr ∈ [s0, s1, s2], h ∈ cr.hours) ↔
        ∃ b ∈ assignClusters 3 [c0, c1, c2] (hd.filter isValidDatum), h ∈ b) := by
    intro h
    constructor
    · rintro ⟨cr, hcr, hhcr⟩
      have hcr2 := hperm.subset hcr
      simp only [List.mem_map] at hcr2
      obtain ⟨p, hp, rfl⟩ := hcr2
      refine ⟨p.2, ?_, (mem_sortNat _ _).1 hhcr⟩
      have : p.2 ∈ (assignClusters 3 [c0, c1, c2] (hd.filter isValidDatum)).enum.map
          Prod.snd := List.mem_map_of_mem _ hp
      rwa [List.enum_map_snd] at this
    · rintro ⟨b, hb, hhb⟩
      rw [← List.enum_map_snd (assignClusters 3 [c0, c1, c2] (hd.filter isValidDatum))]
        at hb
      simp only [List.mem_map] at hb
      obtain ⟨p, hp, rfl⟩ := hb
      refine ⟨ClusterResult.mk p.1 "" (sortNat p.2) (d2.getD p.1 []), ?_,
        (mem_sortNat _ _).2 hhb⟩
      exact hperm.mem_iff.2 (List.mem_map_of_mem _ hp)
  -- pairwise disjointness of the sorted records' hour sets
  have hdisj2 : List.Pairwise
      (fun cr1 cr2 : ClusterResult => ∀ h, h ∈ cr1.hours → h ∉ cr2.hours)
      [s0, s1, s2] := by
    have hmapdisj : List.Pairwise (fun b1 b2 : List ℕ => ∀ h, h ∈ b1 → h ∉ b2)
        ((assignClusters 3 [c0, c1, c2] (hd.filter isValidDatum)).map sortNat) := by
      rw [List.pairwise_map]
      refine hdisj.imp ?_
      intro b1 b2 hb h hh1 hh2
      exact hb h ((mem_sortNat _ _).1 hh1) ((mem_sortNat _ _).1 hh2)
    have hcrsdisj : List.Pairwise
        (fun cr1 cr2 : ClusterResult => ∀ h, h ∈ cr1.hours → h ∉ cr2.hours)
        ((assignClusters 3 [c0, c1, c2] (hd.filter isValidDatum)).enum.map (fun p =>
          ({ clusterId := p.1, label := "", hours := sortNat p.2,
             centroid := d2.getD p.1 [] } : ClusterResult))) := by
      rw [← crs_map_hours _ d2] at hmapdisj
      exact (List.pairwise_map.1 hmapdisj)
    exact (List.Perm.pairwise_iff
      (by intro x y hxy h hy hx; exact hxy h hx hy) hperm).2 hcrsdisj
  -- the ascending order of the sort
  have hsorted := pairwise_sortLe
    (fun a b : ClusterResult => decide (a.centroid.getD 3 0 ≤ b.centroid.getD 3 0))
    (by
      intro a b
      rcases le_total (a.centroid.getD 3 0) (b.centroid.getD 3 0) with hle | hle
      · left; simpa using hle
      · right; simpa using hle)
    (by
      intro a b c h1 h2
      simp only [decide_eq_true_eq] at h1 h2 ⊢
      exact le_trans h1 h2)
    ((assignClusters 3 [c0, c1, c2] (hd.filter isValidDatum)).enum.map (fun p =>
      ({ clusterId := p.1, label := "", hours := sortNat p.2,
         centroid := d2.getD p.1 [] } : ClusterResult)))
  rw [show sortLe
      (fun a b : ClusterResult => decide (a.centroid.getD 3 0 ≤ b.centroid.getD 3 0))
      ((assignClusters 3 [c0, c1, c2] (hd.filter isValidDatum)).enum.map (fun p =>
        ({ clusterId := p.1, label := "", hours := sortNat p.2,
           centroid := d2.getD p.1 [] } : ClusterResult))) =
      sortByCentroidScore
      ((assignClusters 3 [c0, c1, c2] (hd.filter isValidDatum)).enum.map (fun p =>
        ({ clusterId := p.1, label := "", hours := sortNat p.2,
           centroid := d2.getD p.1 [] } : ClusterResult))) from rfl, hs] at hsorted
  simp only [List.pairwise_cons, List.mem_cons, List.not_mem_nil,
    decide_eq_true_eq] at hsorted
  refine ⟨{ s0 with label := labelAt 0 }, { s1 with label := labelAt 1 },
    { s2 with label := labelAt 2 }, ?_, rfl, rfl, rfl, ?_, ?_, ?_, ?_⟩
  · rw [heq, hs]
    rfl
  · exact hsorted.1 s1 (Or.inl rfl)
  · exact hsorted.2.1 s2 (Or.inl rfl)
  · intro h
    have hx := hmemb h
    have hy := hcov h
    constructor
    · intro hor
      have : ∃ cr ∈ [s0, s1, s2], h ∈ cr.hours := by
        rcases hor with h1 | h2 | h3x
        · exact ⟨s0, by simp, h1⟩
        · exact ⟨s1, by simp, h2⟩
        · exact ⟨s2, by simp, h3x⟩
      obtain ⟨p, hp, hph⟩ := hy.1 (hx.1 this)
      exact List.mem_map.2 ⟨p, hp, hph⟩
    · intro hmem
      obtain ⟨p, hp, hph⟩ := List.mem_map.1 hmem
      obtain ⟨cr, hcr, hhcr⟩ := hx.2 (hy.2 ⟨p, hp, hph⟩)
      simp only [List.mem_cons, List.not_mem_nil, or_false] at hcr
      rcases hcr with rfl | rfl | rfl
      · exact Or.inl hhcr
      · exact Or.inr (Or.inl hhcr)
      · exact Or.inr (Or.inr hhcr)
  · intro h
    simp only [List.pairwise_cons, List.mem_cons, List.not_mem_nil] at hdisj2
    refine ⟨?_, ?_, ?_⟩
    · rintro ⟨h1, h2⟩
      exact hdisj2.1 s1 (Or.inl rfl) h h1 h2
    · rintro ⟨h1, h2⟩
      exact hdisj2.1 s2 (Or.inr (Or.inl rfl)) h h1 h2
    · rintro ⟨h1, h2⟩
      exact hdisj2.2.1 s2 (Or.inl rfl) h h1 h2

/-- Witness for C7 at `kmExample` with initial indices 0, 1, 2. -/
theorem c7_clusterer_witness :
    ∃ q m b : ClusterResult,
      kMeansClustering kmExample 3 [0, 1, 2] = [q, m, b] ∧
      q.label = "quiet" ∧ m.label = "moderate" ∧ b.label = "busy" ∧
      q.centroid.getD 3 0 ≤ m.centroid.getD 3 0 ∧
      m.centroid.getD 3 0 ≤ b.centroid.getD 3 0 ∧
      (∀ h, (h ∈ q.hours ∨ h ∈ m.hours ∨ h ∈ b.hours) ↔
        h ∈ (kmExample.filter isValidDatum).map (fun d => d.hour)) ∧
      (∀ h, ¬(h ∈ q.hours ∧ h ∈ m.hours) ∧ ¬(h ∈ q.hours ∧ h ∈ b.hours) ∧
        ¬(h ∈ m.hours ∧ h ∈ b.hours)) :=
  c7_clusterer kmExample [0, 1, 2] (by decide) (by decide) (by decide)
    (by decide) (by decide)

/-! ## Claim C9 — the length guard of `euclideanDistance` is unreachable -/

/-- The distance of two equal-length vectors never throws. -/
theorem euclideanDistance_ok (a b : List ℚ) (h : a.length = b.length) :
    euclideanDistance a b = Except.ok (euclideanDistSq a b) := by
  unfold euclideanDistance
  rw [if_neg (by omega)]

/-- Every centroid along the loop's centroid sequence keeps 4
components. -/
theorem kmCentsAfter4 (pts : List HourDatum) (cents0 : List (List ℚ))
    (h0 : ∀ c ∈ cents0, c.length = 4) :
    ∀ n, ∀ c ∈ kmCentsAfter 3 pts cents0 n, c.length = 4 := by
  intro n
  induction n with
  | zero => exact h0
  | succ n ih =>
    intro c hc
    rw [kmCentsAfter] at hc
    exact kmUpdate4 pts _ _ ih c hc

/-- **C9.** No distance computation the clusterer performs can reach the
length-mismatch throw: every feature vector has exactly 4 components,
every centroid at every stage of the loop has exactly 4 components (so
the point-to-centroid distances and the centroid-movement distances all
take the `Except.ok` branch), and every returned cluster's centroid has
4 components. -/
theorem c9_no_throw (hd : List HourDatum) (initIdx : List ℕ)
    (hk : initIdx.length = 3)
    (hlt : ∀ i ∈ initIdx, i < (hd.filter isValidDatum).length) :
    (∀ p : HourDatum, (features p).length = 4) ∧
    (∀ n : ℕ, ∀ c ∈ kmCentsAfter 3 (hd.filter isValidDatum)
        (initCentroids (hd.filter isValidDatum) initIdx) n,
      c.length = 4 ∧
      (∀ p : HourDatum,
        euclideanDistance (features p) c =
          Except.ok (euclideanDistSq (features p) c)) ∧
      (∀ q0 q1 q2 q3 : ℚ,
        euclideanDistance c [q0, q1, q2, q3] =
          Except.ok (euclideanDistSq c [q0, q1, q2, q3]))) ∧
    (∀ cr ∈ kMeansClustering hd 3 initIdx, cr.centroid.length = 4) := by
  have hfeat : ∀ p : HourDatum, (features p).length = 4 := fun p => rfl
  have hc04 : ∀ c ∈ initCentroids (hd.filter isValidDatum) initIdx,
      c.length = 4 := by
    intro c hcmem
    simp only [initCentroids, List.mem_map] at hcmem
    obtain ⟨i, hi, rfl⟩ := hcmem
    rw [List.get?_eq_get (hlt i hi)]
    rfl
  refine ⟨hfeat, ?_, ?_⟩
  · intro n c hc
    have h4 := kmCentsAfter4 (hd.filter isValidDatum) _ hc04 n c hc
    refine ⟨h4, ?_, ?_⟩
    · intro p
      exact euclideanDistance_ok _ _ (by rw [hfeat p, h4])
    · intro q0 q1 q2 q3
      exact euclideanDistance_ok _ _ (by rw [h4]; rfl)
  · by_cases hlen : hd.length = 0
    · intro cr hcr
      unfold kMeansClustering at hcr
      rw [if_pos hlen] at hcr
      exact absurd hcr (List.not_mem_nil cr)
    · by_cases hval : (hd.filter isValidDatum).length < 3
      · intro cr hcr
        unfold kMeansClustering at hcr
        rw [if_neg hlen] at hcr
        simp only [if_pos hval] at hcr
        exact absurd hcr (List.not_mem_nil cr)
      · obtain ⟨d, d2, hd3, hd23, hd24, heq⟩ :=
          kMeans_core hd initIdx hk (by omega) hlt
        intro cr hcr
        rw [heq] at hcr
        simp only [List.mem_map] at hcr
        obtain ⟨p, hp, rfl⟩ := hcr
        have hp2 : p.2 ∈ sortByCentroidScore
            ((assignClusters 3 d (hd.filter isValidDatum)).enum.map (fun p =>
              ({ clusterId := p.1, label := "", hours := sortNat p.2,
                 centroid := d2.getD p.1 [] } : ClusterResult))) := by
          have := List.mem_map_of_mem Prod.snd hp
          rwa [List.enum_map_snd] at this
        have hp3 : p.2 ∈ ((assignClusters 3 d (hd.filter isValidDatum)).enum.map
            (fun q => ClusterResult.mk q.1 "" (sortNat q.2) (d2.getD q.1 []))) := by
          rw [sortByCentroidScore] at hp2
          exact (mem_sortLe _ _ _).1 hp2
        simp only [List.mem_map] at hp3
        obtain ⟨pp, hpp, hppe⟩ := hp3
        have hpplt : pp.1 < (assignClusters 3 d (hd.filter isValidDatum)).length := by
          have := List.mem_enum_iff_getElem?.1 hpp
          exact (List.getElem?_eq_some.1 this).1
        have hpplt3 : pp.1 < d2.length := by
          rw [hd23]
          rw [assignClusters_length] at hpplt
          exact hpplt
        have hcent :
            (ClusterResult.mk pp.1 "" (sortNat pp.2) (d2.getD pp.1 [])).centroid
              ∈ d2 := by
          have hget : d2.getD pp.1 [] = d2.get ⟨pp.1, hpplt3⟩ := by
            rw [List.getD_eq_getElem _ _ hpplt3]
            rfl
          show d2.getD pp.1 [] ∈ d2
          rw [hget]
          exact List.get_mem d2 _ hpplt3
        rw [hppe] at hcent
        exact hd24 _ hcent

/-- Witness for C9 at `kmExample` with initial indices 0, 1, 2. -/
theorem c9_no_throw_witness :
    (∀ p : HourDatum, (features p).length = 4) ∧
    (∀ n : ℕ, ∀ c ∈ kmCentsAfter 3 (kmExample.filter isValidDatum)
        (initCentroids (kmExample.filter isValidDatum) [0, 1, 2]) n,
      c.length = 4 ∧
      (∀ p : HourDatum,
        euclideanDistance (features p) c =
          Except.ok (euclideanDistSq (features p) c)) ∧
      (∀ q0 q1 q2 q3 : ℚ,
        euclideanDistance c [q0, q1, q2, q3] =
          Except.ok (euclideanDistSq c [q0, q1, q2, q3]))) ∧
    (∀ cr ∈ kMeansClustering kmExample 3 [0, 1, 2], cr.centroid.length = 4) :=
  c9_no_throw kmExample [0, 1, 2] (by decide) (by decide)

/-- Witness for C2 at `bpExample`. -/
theorem c2_busy_periods_witness :
    (topBusyPeriods bpExample).length ≤ 3 ∧
    (topBusyPeriods bpExample).Pairwise (fun a b => b.avgScore ≤ a.avgScore) ∧
    ∀ p ∈ topBusyPeriods bpExample, p.startH + 1 ≤ p.endH :=
  c2_busy_periods bpExample (by decide)

end Urban
